import Mathlib

/-!
Verification of the HIDL C++ code generator (android_system_tools_hidl).

This file shallowly embeds the parts of the sources that the checked
properties speak about:

* `AST.cpp` — `AST::lookupType`, `AST::findDefinedType`,
  `AST::addScopedTypeInternal` and the scope-path machinery;
* `generateCpp.cpp` — `AST::generateCpp` (artifact staging),
  `AST::generateProxyMethodSource`, `AST::generateStubSource`, and
  `AST::generatePassthroughSource`.

Helpers implemented in repository files that are not part of the given
sources (`FQName.cpp`, `Scope.cpp`, `Interface.cpp`, `Method.cpp`) are
modelled from the specification and are marked as such in their doc
comments.
-/

namespace Hidl

/-- A fully qualified name `package@version::name.subname`.  The package is
kept as its dot-separated components, the version as a plain string and the
name as its dot-separated path components (`FQName::names()`); an empty
component list models an empty name. -/
structure FQName where
  package : List String
  version : String
  names : List String
deriving DecidableEq, Repr

/-- Modelled from the spec: `FQName::endsWith` (`FQName.cpp` is not among
the sources).  "`endsWith(other)` matches when the right-hand suffixes of
package, version, and name components all match the non-empty fields of
`other`". -/
def FQName.endsWith (f q : FQName) : Bool :=
  (q.package.isEmpty || q.package.isSuffixOf f.package) &&
  (q.version.isEmpty || q.version == f.version) &&
  (q.names.isEmpty || q.names.isSuffixOf f.names)

/-- The fragment of the `Type` hierarchy observed by `AST::lookupType`:
typedef aliases (`TypeDef`, carrying the referenced type), interfaces and
other named user-defined types (each carrying the `fullName` assigned at
scope insertion), predefined types, and unnamed types such as scalars. -/
inductive HType where
  | typeDef (referenced : HType)
  | iface (fq : FQName)
  | namedUDT (fq : FQName)
  | predefined (name : String)
  | unnamed
deriving DecidableEq, Repr

/-- `Type::isTypeDef`. -/
def HType.isTypeDef : HType → Bool
  | .typeDef _ => true
  | _ => false

/-- `Type::isInterface`. -/
def HType.isInterface : HType → Bool
  | .iface _ => true
  | _ => false

/-- `Type::isNamedType`: typedefs, interfaces and user-defined types are
`NamedType`s; predefined and unnamed types are not. -/
def HType.isNamedType : HType → Bool
  | .typeDef _ => true
  | .iface _ => true
  | .namedUDT _ => true
  | _ => false

/-- `NamedType::fqName` for the named variants. -/
def HType.fqNameOf : HType → Option FQName
  | .iface fq => some fq
  | .namedUDT fq => some fq
  | _ => none

/-- The `while (type->isTypeDef()) type = referencedType()` loops of
`AST::lookupType` (`AST.cpp`): collapse a chain of typedefs to the first
non-typedef type. -/
def collapseTypeDefs : HType → HType
  | .typeDef referenced => collapseTypeDefs referenced
  | t => t

/-- A scope's name table (`Scope::mTypes` keyed by local name), the part of
`Scope` that `AST::lookupType` consults. -/
abbrev ScopeTable := List (String × HType)

/-- Modelled from the spec: `Scope::lookupType` (`Scope.cpp` is not among
the sources).  "if fqName has no package/version and a single identifier,
matches by local name; otherwise returns none". -/
def scopeLookupType (s : ScopeTable) (fq : FQName) : Option HType :=
  if fq.package = [] ∧ fq.version = "" then
    match fq.names with
    | [n] => (s.find? (fun p => p.1 == n)).map (·.2)
    | _ => none
  else
    none

/-- The defined-types index of one (imported) AST:
`AST::mDefinedTypesByFullName`, in its iteration order. -/
abbrev DefinedIndex := List (FQName × HType)

/-- `AST::findDefinedType` (`AST.cpp`): scan the defined-types index and
return the first entry whose key ends with the query, together with that
key (the `matchingName` out-parameter). -/
def findDefinedType (ix : DefinedIndex) (fq : FQName) : Option (HType × FQName) :=
  (ix.find? (fun p => p.1.endsWith fq)).map (fun p => (p.2, p.1))

/-- The fields of `AST` that `AST::lookupType` reads: the active scope path
(`mScopePath`, in push order — the innermost scope last, as in the source's
vector) and the imported ASTs (`mImportedASTs`, each reduced to its
defined-types index), in iteration order. -/
structure LookupAST where
  scopePath : List ScopeTable
  importedASTs : List DefinedIndex
deriving Repr

/-- The observable outcome of one `AST::lookupType` call: the returned type
(`NULL` becomes `none`), the full names printed by the "multiple matches
found" diagnostic, and the names inserted into `mImportedNames` and
`mImportedNamesForJava` during the call. -/
structure LookupResult where
  result : Option HType
  ambiguousCandidates : List FQName
  importedNames : List FQName
  importedNamesForJava : List FQName
deriving DecidableEq, Repr

/-- The `for (size_t i = mScopePath.size(); i-- > 0;)` loop of
`AST::lookupType`: try the scopes from the innermost (the vector's back)
outward, returning the first raw match. -/
def scopeWalk (path : List ScopeTable) (fq : FQName) : Option HType :=
  match path with
  | [] => none
  | s :: rest =>
    match scopeWalk rest fq with
    | some t => some t
    | none => scopeLookupType s fq

/-- The local-resolution step of `AST::lookupType`: the scope path is only
consulted for a plain identifier (empty package and version). -/
def scopeResult (ast : LookupAST) (fq : FQName) : Option HType :=
  if fq.package = [] ∧ fq.version = "" then scopeWalk ast.scopePath fq else none

/-- Outcome of scanning the imported ASTs in `AST::lookupType`. -/
inductive ImportScan where
  | notFound
  | found (t : HType) (matchingName : FQName)
  | ambiguous (firstName secondName : FQName)
deriving DecidableEq, Repr

/-- The `for (const auto &importedAST : mImportedASTs)` loop of
`AST::lookupType`: remember the first match; on a second match print the
two names seen and fail ("Keep going even after finding a match"). -/
def scanImportsAux (fq : FQName) (acc : Option (HType × FQName)) :
    List DefinedIndex → ImportScan
  | [] =>
    match acc with
    | none => .notFound
    | some (t, n) => .found t n
  | a :: rest =>
    match findDefinedType a fq with
    | none => scanImportsAux fq acc rest
    | some (t, n) =>
      match acc with
      | none => scanImportsAux fq (some (t, n)) rest
      | some (_, n0) => .ambiguous n0 n

/-- Scan of all imported ASTs with an initially empty accumulator. -/
def scanImports (asts : List DefinedIndex) (fq : FQName) : ImportScan :=
  scanImportsAux fq none asts

/-- All matches `findDefinedType` produces across the imported ASTs, in
their iteration order (specification device used to state how many
matches exist). -/
def importMatches (asts : List DefinedIndex) (fq : FQName) :
    List (HType × FQName) :=
  asts.filterMap (fun a => findDefinedType a fq)

/-- The `FQName ifc(resolvedName.package(), resolvedName.version(),
resolvedName.names().at(0))` query built by `AST::lookupType` to test
whether the match's first name component is an interface. -/
def containingIfcQuery (resolvedName : FQName) : FQName :=
  ⟨resolvedName.package, resolvedName.version, [resolvedName.names.headD ""]⟩

/-- The second `for (const auto &importedAST : mImportedASTs)` loop of
`AST::lookupType`: look the first name component up in every imported AST
and keep the last match that is an interface (`resolvedType = match`). -/
def findContainingInterface (asts : List DefinedIndex) (ifc : FQName) :
    Option HType :=
  match asts with
  | [] => none
  | a :: rest =>
    let tail := findContainingInterface rest ifc
    match findDefinedType a ifc with
    | some (t, _) =>
      if t.isInterface then
        match tail with
        | some t' => some t'
        | none => some t
      else tail
    | none => tail

/-- The `if (resolvedType)` success path of `AST::lookupType`: collapse
typedefs, determine the include target (the containing interface when the
first name component names one, else the package's `types` artifact, else
the interface itself), and record the imported names.  The returned type is
the collapsed resolution (`returnedType`), unaffected by the include-target
search. -/
def lookupSuccess (ast : LookupAST) (t : HType) (matchingName : FQName) :
    LookupResult :=
  let resolved0 := collapseTypeDefs t
  if resolved0.isInterface then
    { result := some resolved0
      ambiguousCandidates := []
      importedNames := (resolved0.fqNameOf).toList
      importedNamesForJava := (resolved0.fqNameOf).toList }
  else
    let ifc := containingIfcQuery matchingName
    let resolved1 :=
      match findContainingInterface ast.importedASTs ifc with
      | some m => m
      | none => resolved0
    if resolved1.isInterface then
      { result := some resolved0
        ambiguousCandidates := []
        importedNames := (resolved1.fqNameOf).toList
        importedNamesForJava := (resolved1.fqNameOf).toList }
    else
      { result := some resolved0
        ambiguousCandidates := []
        importedNames := [⟨matchingName.package, matchingName.version, ["types"]⟩]
        importedNamesForJava :=
          if resolved0.isNamedType && !resolved0.isTypeDef then
            (resolved0.fqNameOf).toList
          else [] }

/-- The import phase of `AST::lookupType`: scan the imported ASTs, fail
with both names on a second match, fall back to the predefined
`MQDescriptor` for that unqualified name, and otherwise run the success
path. -/
def lookupTypeViaImports (ast : LookupAST) (fq : FQName) : LookupResult :=
  match scanImports ast.importedASTs fq with
  | .ambiguous n1 n2 =>
    { result := none
      ambiguousCandidates := [n1, n2]
      importedNames := []
      importedNamesForJava := [] }
  | .notFound =>
    if fq.package = [] ∧ fq.version = "" ∧ fq.names = ["MQDescriptor"] then
      { result := some (.predefined "::android::hardware::MQDescriptor")
        ambiguousCandidates := []
        importedNames := []
        importedNamesForJava := [] }
    else
      { result := none
        ambiguousCandidates := []
        importedNames := []
        importedNamesForJava := [] }
  | .found t n => lookupSuccess ast t n

/-- `AST::lookupType` (`AST.cpp`): an empty name resolves to nothing at
once; a plain identifier is first resolved against the scope path (typedef
chains collapsed); otherwise resolution goes through the imported ASTs. -/
def lookupType (ast : LookupAST) (fq : FQName) : LookupResult :=
  if fq.names = [] then
    { result := none
      ambiguousCandidates := []
      importedNames := []
      importedNamesForJava := [] }
  else
    match scopeResult ast fq with
    | some t =>
      { result := some (collapseTypeDefs t)
        ambiguousCandidates := []
        importedNames := []
        importedNamesForJava := [] }
    | none => lookupTypeViaImports ast fq

/-! ### Methods and interfaces, as seen by the C++ emitter -/

/-- The capabilities of an argument or result type that
`generateCpp.cpp` queries: `Type::isInterface`,
`Type::needsResolveReferences`, `Type::resultNeedsDeref`, and the
scalar-class eligibility that drives callback elision. -/
structure TypeProps where
  isInterface : Bool
  needsResolveReferences : Bool
  resultNeedsDeref : Bool
  isScalarLike : Bool
deriving DecidableEq, Repr

/-- A `TypedVar`: argument or result name plus its type's capabilities. -/
structure TypedVar where
  name : String
  ty : TypeProps
deriving DecidableEq, Repr

/-- A `Method` as consumed by the emitter: name, serial id, one-way flag,
arguments, results, and the reserved-method machinery
(`Method::isHidlReserved` / `Method::overridesCppImpl(IMPL_PROXY)`,
implemented outside the given sources). -/
structure MethodM where
  name : String
  serialId : Nat
  isOneway : Bool
  args : List TypedVar
  results : List TypedVar
  isHidlReserved : Bool
  overridesProxyImpl : Bool
deriving DecidableEq, Repr

/-- Modelled from the spec: `Method::canElideCallback` (`Method.cpp` is not
among the sources).  "A method `canElideCallback` when exactly one result
exists and its type is a scalar-class return". -/
def canElideCallback (m : MethodM) : Option TypedVar :=
  match m.results with
  | [r] => if r.ty.isScalarLike then some r else none
  | _ => none

/-- An `Interface`: its fully qualified name, its stub class name
(`Bn…` convention), its own methods and the optional super-interface, a
single-inheritance chain. -/
inductive InterfaceM where
  | mk (fqName : FQName) (stubName : String) (methods : List MethodM)
       (superType : Option InterfaceM)

/-- The interface's fully qualified name. -/
def InterfaceM.fqName : InterfaceM → FQName
  | .mk fq _ _ _ => fq

/-- The interface's stub class name. -/
def InterfaceM.stubName : InterfaceM → String
  | .mk _ sn _ _ => sn

/-- The interface's own (non-inherited) methods. -/
def InterfaceM.methods : InterfaceM → List MethodM
  | .mk _ _ ms _ => ms

/-- The interface's super-interface, when any. -/
def InterfaceM.superType : InterfaceM → Option InterfaceM
  | .mk _ _ _ s => s

/-- Modelled from the spec: `Interface::typeChain` (`Interface.cpp` is not
among the sources) — the interface followed by its ancestors up to the
root. -/
def InterfaceM.typeChain : InterfaceM → List InterfaceM
  | .mk fq sn ms none => [.mk fq sn ms none]
  | .mk fq sn ms (some s) => .mk fq sn ms (some s) :: s.typeChain

/-- Modelled from the spec: `Interface::allMethodsFromRoot`
(`Interface.cpp` is not among the sources) — every method of the full
inheritance chain, root first, each tagged with its defining
super-interface. -/
def InterfaceM.allMethodsFromRoot (i : InterfaceM) : List (InterfaceM × MethodM) :=
  (i.typeChain).reverse.flatMap (fun j => j.methods.map (fun m => (j, m)))

/-- Modelled from the spec: `Interface::hasOnewayMethods`
(`Interface.cpp` is not among the sources) — "If any method in the chain
is `oneway`". -/
def InterfaceM.hasOnewayMethods (i : InterfaceM) : Bool :=
  i.allMethodsFromRoot.any (fun p => p.2.isOneway)

/-! ### `AST::generateCpp` — artifact staging -/

/-- The six generation stages of `AST::generateCpp`, named after the
artifacts they write. -/
inductive Stage where
  | interfaceHeader
  | stubHeader
  | hwBinderHeader
  | proxyHeader
  | allSource
  | passthroughHeader
deriving DecidableEq, Repr

/-- Android `status_t`; `OK` is `0`. -/
abbrev Status_t := Int

/-- `OK`. -/
def OK : Status_t := 0

/-- `AST::generateCpp` (`generateCpp.cpp` lines 35–59), abstracting each
stage to the status it would produce: run `generateInterfaceHeader`, then,
whenever the status so far is `OK`, `generateStubHeader`,
`generateHwBinderHeader`, `generateProxyHeader`, `generateAllSource` and
`generatePassthroughHeader` in that order; return the final status and the
list of stages actually attempted. -/
def generateCpp (gen : Stage → Status_t) : Status_t × List Stage :=
  let e1 := gen .interfaceHeader
  if e1 ≠ OK then (e1, [.interfaceHeader]) else
  let e2 := gen .stubHeader
  if e2 ≠ OK then (e2, [.interfaceHeader, .stubHeader]) else
  let e3 := gen .hwBinderHeader
  if e3 ≠ OK then (e3, [.interfaceHeader, .stubHeader, .hwBinderHeader]) else
  let e4 := gen .proxyHeader
  if e4 ≠ OK then
    (e4, [.interfaceHeader, .stubHeader, .hwBinderHeader, .proxyHeader]) else
  let e5 := gen .allSource
  if e5 ≠ OK then
    (e5, [.interfaceHeader, .stubHeader, .hwBinderHeader, .proxyHeader,
          .allSource]) else
  let e6 := gen .passthroughHeader
  (e6, [.interfaceHeader, .stubHeader, .hwBinderHeader, .proxyHeader,
        .allSource, .passthroughHeader])

/-- Run stages in the given order, stopping at the first failure
(specification device used to compare stage orders). -/
def runStages (gen : Stage → Status_t) : List Stage → Status_t × List Stage
  | [] => (OK, [])
  | s :: rest =>
    let e := gen s
    if e = OK then
      let r := runStages gen rest
      (r.1, s :: r.2)
    else (e, [s])

/-- The order in which the source attempts the stages. -/
def codeArtifactOrder : List Stage :=
  [.interfaceHeader, .stubHeader, .hwBinderHeader, .proxyHeader,
   .allSource, .passthroughHeader]

/-- Follows the spec's words, for comparison with the source: the spec
lists the artifacts as "interface header, wire-format helper header, stub
header, proxy header, pass-through header, combined source". -/
def specArtifactOrder : List Stage :=
  [.interfaceHeader, .hwBinderHeader, .stubHeader, .proxyHeader,
   .passthroughHeader, .allSource]

/-- The first stage of the given order whose status is not `OK`. -/
def firstFailing (gen : Stage → Status_t) (order : List Stage) : Option Stage :=
  order.find? (fun s => gen s ≠ OK)

/-! ### `AST::generateProxyMethodSource` -/

/-- The statements of a generated proxy method body, one constructor per
emission step of `AST::generateProxyMethodSource` (`generateCpp.cpp`
lines 1140–1316). -/
inductive ProxyStmt where
  /-- Body of a reserved method overriding the proxy implementation. -/
  | customImpl
  /-- The `_hidl_cb == nullptr` check returning `EX_ILLEGAL_ARGUMENT`. -/
  | checkCbNonNull
  /-- `CLIENT_API_ENTRY` instrumentation. -/
  | instrumentationEntry
  /-- Parcel, status and result-local declarations. -/
  | declareLocals
  /-- `_hidl_data.writeInterfaceToken(<descriptor>)` plus its error check;
  the descriptor is the defining super-interface's. -/
  | writeInterfaceToken (descriptor : FQName)
  /-- Phase-1 writer for one argument against the data parcel. -/
  | writeArg (argName : String)
  /-- Phase-2 reference resolver for one argument. -/
  | resolveArg (argName : String)
  /-- `ProcessState::self()->startThreadPool()`. -/
  | startThreadPool
  /-- `remote()->transact(serialId, data, &reply[, FLAG_ONEWAY])` plus its
  error check. -/
  | transact (serialId : Nat) (onewayFlag : Bool)
  /-- `readFromParcel(&_hidl_status, _hidl_reply)` plus the status checks. -/
  | readStatus
  /-- Phase-1 reader for one result from the reply parcel. -/
  | readResult (resultName : String)
  /-- Phase-2 reference resolver for one result. -/
  | resolveResult (resultName : String)
  /-- `_hidl_cb(...)` with every result. -/
  | invokeCallback (resultNames : List String)
  /-- `CLIENT_API_EXIT` instrumentation. -/
  | instrumentationExit
  /-- `return Return<T>(_hidl_out_<r>)` for the elided scalar result. -/
  | returnElided (resultName : String)
  /-- `return Return<void>()`. -/
  | returnVoid
  /-- The `_hidl_error:` label packaging `_hidl_status`. -/
  | errorLabelReturn
deriving DecidableEq, Repr

/-- `AST::generateProxyMethodSource` (`generateCpp.cpp` lines 1140–1316)
reduced to the sequence of statements it emits for method `m` defined in
super-interface `superIfc`. -/
def generateProxyMethodSource (m : MethodM) (superIfc : InterfaceM) :
    List ProxyStmt :=
  if m.isHidlReserved && m.overridesProxyImpl then [.customImpl] else
  let returnsValue := !m.results.isEmpty
  let elided := canElideCallback m
  (if returnsValue && elided.isNone then [ProxyStmt.checkCbNonNull] else []) ++
  [ProxyStmt.instrumentationEntry, ProxyStmt.declareLocals,
   ProxyStmt.writeInterfaceToken superIfc.fqName] ++
  m.args.map (fun a => ProxyStmt.writeArg a.name) ++
  (m.args.filterMap fun a =>
    if a.ty.needsResolveReferences then some (ProxyStmt.resolveArg a.name)
    else none) ++
  (if m.args.any (fun a => a.ty.isInterface) then [ProxyStmt.startThreadPool]
   else []) ++
  [ProxyStmt.transact m.serialId m.isOneway] ++
  (if !m.isOneway then
    [ProxyStmt.readStatus] ++
    m.results.map (fun r => ProxyStmt.readResult r.name) ++
    (m.results.filterMap fun r =>
      if r.ty.needsResolveReferences then some (ProxyStmt.resolveResult r.name)
      else none) ++
    (if returnsValue && elided.isNone then
      [ProxyStmt.invokeCallback (m.results.map (·.name))]
     else [])
   else []) ++
  [ProxyStmt.instrumentationExit] ++
  (match elided with
   | some r => [ProxyStmt.returnElided r.name]
   | none => [ProxyStmt.returnVoid]) ++
  [ProxyStmt.errorLabelReturn]

/-- The statement writes the interface token. -/
def isTokenWrite : ProxyStmt → Bool
  | .writeInterfaceToken _ => true
  | _ => false

/-- The statement marshals an argument (phase-1 write or phase-2
reference resolution against the data parcel). -/
def isArgMarshal : ProxyStmt → Bool
  | .writeArg _ => true
  | .resolveArg _ => true
  | _ => false

/-- The statement reads from the reply: the status header, a result, a
result's reference fixup, or the result callback invocation. -/
def isReplyRead : ProxyStmt → Bool
  | .readStatus => true
  | .readResult _ => true
  | .resolveResult _ => true
  | .invokeCallback _ => true
  | _ => false

/-! ### `AST::generateStubSource` — the `onTransact` switch -/

/-- The shape of the generated stub `onTransact`: the serial ids of its
cases, in emission order, and the call target written in the `default`
case. -/
structure StubOnTransact where
  caseSerialIds : List Nat
  defaultCallee : String
deriving DecidableEq, Repr

/-- `AST::generateStubSource` (`generateCpp.cpp` lines 1410–1482) reduced
to the switch it emits: one `case <serialId>` per entry of
`allMethodsFromRoot`, and a `default` case whose body is
`return onTransact(_hidl_code, _hidl_data, _hidl_reply, _hidl_flags,
_hidl_cb);` — an unqualified call, naming the stub's own `onTransact`. -/
def generateStubOnTransact (iface : InterfaceM) : StubOnTransact :=
  { caseSerialIds := iface.allMethodsFromRoot.map (fun p => p.2.serialId)
    defaultCallee := "onTransact" }

/-- Follows the spec's words, for comparison with the source: a `default`
case that "delegates to the super-interface's `onTransact`" would name the
super-interface's stub, e.g. `BnHwParent::onTransact`. -/
def specDefaultCallee (iface : InterfaceM) : Option String :=
  (iface.superType).map (fun s => s.stubName ++ "::onTransact")

/-! ### `AST::generatePassthroughSource` -/

/-- A generated `::android::hardware::Status` value. -/
inductive StatusM where
  | ok
  | fromExceptionCode (code : String)
deriving DecidableEq, Repr

/-- The body of the generated `addOnewayTask`: the status returned when
`mOnewayQueue.push` fails, and the one returned otherwise. -/
structure AddOnewayTaskBody where
  pushFailStatus : StatusM
  pushOkStatus : StatusM
deriving DecidableEq, Repr

/-- Semantics of the generated `addOnewayTask` body: `if
(!mOnewayQueue.push(fun)) return <fail>; return <ok>;`. -/
def AddOnewayTaskBody.run (b : AddOnewayTaskBody) (pushSucceeds : Bool) :
    StatusM :=
  if pushSucceeds then b.pushOkStatus else b.pushFailStatus

/-- The observable content of `AST::generatePassthroughSource`
(`generateCpp.cpp` lines 1849–1897): the one-way queue limit set in the
generated constructor (absent when the interface has no one-way methods)
and the generated `addOnewayTask` body (likewise). -/
structure PassthroughSource where
  onewayQueueLimit : Option Nat
  addOnewayTask : Option AddOnewayTaskBody
deriving DecidableEq, Repr

/-- `AST::generatePassthroughSource` (`generateCpp.cpp` lines 1849–1897):
when the interface has one-way methods the constructor runs
`mOnewayQueue.setLimit(3000)` and an `addOnewayTask` is emitted that
returns `Status::fromExceptionCode(EX_TRANSACTION_FAILED)` when the queue
push fails and `Status()` otherwise. -/
def generatePassthroughSource (iface : InterfaceM) : PassthroughSource :=
  if iface.hasOnewayMethods then
    { onewayQueueLimit := some 3000
      addOnewayTask := some
        { pushFailStatus := .fromExceptionCode "EX_TRANSACTION_FAILED"
          pushOkStatus := .ok } }
  else
    { onewayQueueLimit := none, addOnewayTask := none }

/-! ### `AST::addScopedTypeInternal` and the parsing state -/

/-- A `NamedType` as the defined-types index sees it: its local name and
the `fullName` assigned by `setFullName` at scope insertion. -/
structure NamedTypeM where
  localName : String
  fullName : FQName
deriving DecidableEq, Repr

/-- One scope on the scope path: its local name and its name table
(`Scope::addType` inserts into the table, failing on duplicates). -/
structure Frame where
  localName : String
  table : List (String × NamedTypeM)
deriving DecidableEq, Repr

/-- The parsing-time state of an `AST`: package identity (`mPackage`), the
scope path (`mScopePath`, root first and innermost last as in the source's
vector), the defined-types index (`mDefinedTypesByFullName`), and the list
of every type inserted so far.  Since every inserted type — scope
containers included — is attached to the scope that was current at
insertion, `added` is exactly the set of named types reachable from the
root scope. -/
structure ParseState where
  pkg : List String
  ver : String
  scopePath : List Frame
  index : List (FQName × NamedTypeM)
  added : List NamedTypeM
deriving DecidableEq, Repr

/-- `mDefinedTypesByFullName[fqName] = type`: map insertion, replacing any
entry with the same key. -/
def insertIndex (ix : List (FQName × NamedTypeM)) (k : FQName)
    (v : NamedTypeM) : List (FQName × NamedTypeM) :=
  (k, v) :: ix.filter (fun p => p.1 != k)

/-- Key lookup in the defined-types index. -/
def lookupIndex (ix : List (FQName × NamedTypeM)) (k : FQName) :
    Option NamedTypeM :=
  (ix.find? (fun p => p.1 == k)).map (·.2)

/-- `AST::addScopedTypeInternal` (`AST.cpp` lines 153–176): add the type to
the current scope (failing on a duplicate local name, per `Scope::addType`
as the spec describes it), build the dotted path from the scope path's
local names (skipping the root) joined with the type's local name, assign
that full name to the type and record it in the defined-types index.
`scope()` `CHECK`s that the scope path is non-empty; an empty path is
modelled as failure. -/
def addScopedTypeInternal (st : ParseState) (nm : String) :
    Option ParseState :=
  match st.scopePath.getLast? with
  | none => none
  | some f =>
    if (f.table.find? (fun p => p.1 == nm)).isSome then none
    else
      let fq : FQName :=
        ⟨st.pkg, st.ver, (st.scopePath.drop 1).map Frame.localName ++ [nm]⟩
      let t : NamedTypeM := ⟨nm, fq⟩
      some { st with
        scopePath :=
          st.scopePath.dropLast ++ [{ f with table := f.table ++ [(nm, t)] }]
        index := insertIndex st.index fq t
        added := st.added ++ [t] }

/-- The parsing operations that touch the scope path and the index.  A
failed insertion aborts parsing in the source (the error is surfaced and
the AST discarded); it is modelled as leaving the state unchanged.
`leaveScope` below the root would trip the `CHECK(!mScopePath.empty())`
in `AST::scope`; the model keeps the root. -/
inductive ParseOp where
  /-- `addScopedType`/`addTypeDef` of a leaf type (both run
  `addScopedTypeInternal`; the `TypeDef` wrapper does not change the
  index behaviour). -/
  | add (localName : String)
  /-- A nested declaration: `addScopedType` of the scope container
  followed by `enterScope`. -/
  | openScope (localName : String)
  /-- `leaveScope`. -/
  | close
deriving DecidableEq, Repr

/-- Apply one parsing operation. -/
def applyOp (st : ParseState) : ParseOp → ParseState
  | .add nm =>
    match addScopedTypeInternal st nm with
    | some st' => st'
    | none => st
  | .openScope nm =>
    match addScopedTypeInternal st nm with
    | some st' => { st' with scopePath := st'.scopePath ++ [⟨nm, []⟩] }
    | none => st
  | .close =>
    if st.scopePath.length ≤ 1 then st
    else { st with scopePath := st.scopePath.dropLast }

/-- The state of a freshly constructed `AST`: the root scope (local name
`""`) entered, everything else empty. -/
def initParseState (pkg : List String) (ver : String) : ParseState :=
  ⟨pkg, ver, [⟨"", []⟩], [], []⟩

/-- Run a sequence of parsing operations. -/
def runOps (st : ParseState) (ops : List ParseOp) : ParseState :=
  ops.foldl applyOp st

/-- The inductive invariant tying the defined-types index to the inserted
types: fixed package identity; every index entry's key is the mapped
type's full name and the mapped type was inserted; every inserted type
carries the AST's package and version, ends its name path in its local
name, and is found in the index under its own full name. -/
def IndexInv (pkg : List String) (ver : String) (st : ParseState) : Prop :=
  st.pkg = pkg ∧ st.ver = ver ∧
  (∀ p ∈ st.index, p.1 = p.2.fullName ∧ p.2 ∈ st.added) ∧
  (∀ t ∈ st.added,
    t.fullName.package = pkg ∧ t.fullName.version = ver ∧
    t.fullName.names.getLast? = some t.localName ∧
    lookupIndex st.index t.fullName = some t)

/-! ### Concrete fixtures for witnesses and counterexamples -/

/-- `q1@1.0::Bar`, a user-defined type in a first imported package. -/
def barQ1 : FQName := ⟨["q1"], "1.0", ["Bar"]⟩

/-- `q2@1.0::Bar`, a user-defined type in a second imported package. -/
def barQ2 : FQName := ⟨["q2"], "1.0", ["Bar"]⟩

/-- An imported AST defining `q1@1.0::Bar`. -/
def astQ1 : DefinedIndex := [(barQ1, .namedUDT barQ1)]

/-- An imported AST defining `q2@1.0::Bar`. -/
def astQ2 : DefinedIndex := [(barQ2, .namedUDT barQ2)]

/-- `q@1.0::IQ`, an interface, and `q@1.0::IQ.Folder`, a type nested in
it. -/
def iqFq : FQName := ⟨["q"], "1.0", ["IQ"]⟩

/-- See `iqFq`. -/
def folderFq : FQName := ⟨["q"], "1.0", ["IQ", "Folder"]⟩

/-- An imported AST defining interface `q@1.0::IQ` and the nested
`q@1.0::IQ.Folder`. -/
def astQNested : DefinedIndex :=
  [(iqFq, .iface iqFq), (folderFq, .namedUDT folderFq)]

/-- A resolving AST with an empty root scope importing `astQ1` and
`astQ2` — the ambiguous-`Bar` scenario. -/
def ambiguousAst : LookupAST := ⟨[[]], [astQ1, astQ2]⟩

/-- A resolving AST with an empty root scope importing only `astQ1`. -/
def uniqueAst : LookupAST := ⟨[[]], [astQ1]⟩

/-- A resolving AST importing the package with the nested `IQ.Folder`. -/
def nestedAst : LookupAST := ⟨[[]], [astQNested]⟩

/-- A resolving AST whose scope path has an outer scope binding `Baz` to a
typedef of an unnamed type and an inner scope binding `Baz` to a
user-defined type. -/
def scopedAst : LookupAST :=
  ⟨[[("Baz", .typeDef .unnamed)],
    [("Baz", .namedUDT ⟨["p"], "1.0", ["Qux", "Baz"]⟩)]], [astQ1]⟩

/-- The bare-identifier query `Bar`. -/
def bareBar : FQName := ⟨[], "", ["Bar"]⟩

/-- The bare-identifier query `Baz`. -/
def bareBaz : FQName := ⟨[], "", ["Baz"]⟩

/-- The bare-identifier query `Folder`. -/
def bareFolder : FQName := ⟨[], "", ["Folder"]⟩

/-- A method `m1(): serial 1` of the parent fixture interface. -/
def m1Fixture : MethodM :=
  { name := "m1", serialId := 1, isOneway := false, args := [],
    results := [], isHidlReserved := false, overridesProxyImpl := false }

/-- A method `m2(): serial 2` of the child fixture interface. -/
def m2Fixture : MethodM :=
  { name := "m2", serialId := 2, isOneway := false, args := [],
    results := [], isHidlReserved := false, overridesProxyImpl := false }

/-- The fixture interface `IParent` with stub `BnHwParent`. -/
def parentIface : InterfaceM :=
  .mk ⟨["p"], "1.0", ["IParent"]⟩ "BnHwParent" [m1Fixture] none

/-- The fixture interface `IChild extends IParent` with stub
`BnHwChild`. -/
def childIface : InterfaceM :=
  .mk ⟨["p"], "1.0", ["IChild"]⟩ "BnHwChild" [m2Fixture] (some parentIface)

/-- A scalar-like type for fixtures. -/
def scalarTy : TypeProps :=
  { isInterface := false, needsResolveReferences := false,
    resultNeedsDeref := false, isScalarLike := true }

/-- A vector-like type needing reference resolution, for fixtures. -/
def vecTy : TypeProps :=
  { isInterface := false, needsResolveReferences := true,
    resultNeedsDeref := true, isScalarLike := false }

/-- Fixture method `double ping(int32_t x)` with serial id 1. -/
def pingMethod : MethodM :=
  { name := "ping", serialId := 1, isOneway := false,
    args := [⟨"x", scalarTy⟩, ⟨"ys", vecTy⟩],
    results := [⟨"result", scalarTy⟩],
    isHidlReserved := false, overridesProxyImpl := false }

/-- Fixture one-way method `oneway void notify_()` with serial id 2. -/
def notifyMethod : MethodM :=
  { name := "notify_", serialId := 2, isOneway := true,
    args := [⟨"x", scalarTy⟩],
    results := [],
    isHidlReserved := false, overridesProxyImpl := false }

/-- The fixture interface `IFoo` containing `ping` and `notify_`. -/
def fooIface : InterfaceM :=
  .mk ⟨["p"], "1.0", ["IFoo"]⟩ "BnHwFoo" [pingMethod, notifyMethod] none

/-- A stage-status assignment on which the source order and the spec's
listed order return different statuses: the stub header fails with `-1`
and the wire-format helper header with `-2`. -/
def genTwoFailures : Stage → Status_t
  | .stubHeader => -1
  | .hwBinderHeader => -2
  | _ => 0

/-- The all-stages-succeed status assignment. -/
def genAllOk : Stage → Status_t := fun _ => 0

/-- Concrete parsing history: `types.hal`-style unit defining `Foo`, then
a nested scope `Baz` containing `Inner`, closed, then `Bar`. -/
def fixtureOps : List ParseOp :=
  [.add "Foo", .openScope "Baz", .add "Inner", .close, .add "Bar"]

/-- The index entry produced for the nested type `Baz.Inner` of
`fixtureOps`. -/
def innerEntry : FQName × NamedTypeM :=
  (⟨["p"], "1.0", ["Baz", "Inner"]⟩, ⟨"Inner", ⟨["p"], "1.0", ["Baz", "Inner"]⟩⟩)

/-! ## Lemmas about the import scan -/

theorem scanImportsAux_of_noMatch (fq : FQName) (acc : Option (HType × FQName))
    (asts : List DefinedIndex) (h : importMatches asts fq = []) :
    scanImportsAux fq acc asts =
      (match acc with
       | none => ImportScan.notFound
       | some (t, n) => ImportScan.found t n) := by
  induction asts generalizing acc with
  | nil => rfl
  | cons a tl ih =>
    cases hf : findDefinedType a fq with
    | none =>
      simp only [importMatches, List.filterMap_cons, hf] at h
      simpa [scanImportsAux, hf] using ih acc h
    | some p =>
      simp [importMatches, List.filterMap_cons, hf] at h

theorem scanImportsAux_ambiguous_of_match (fq : FQName)
    (asts : List DefinedIndex) (t0 t2 : HType) (n0 n2 : FQName)
    (rest : List (HType × FQName))
    (h : importMatches asts fq = (t2, n2) :: rest) :
    scanImportsAux fq (some (t0, n0)) asts = .ambiguous n0 n2 := by
  induction asts with
  | nil => simp [importMatches] at h
  | cons a tl ih =>
    cases hf : findDefinedType a fq with
    | none =>
      simp only [importMatches, List.filterMap_cons, hf] at h
      simpa [scanImportsAux, hf] using ih h
    | some p =>
      simp only [importMatches, List.filterMap_cons, hf, List.cons.injEq] at h
      obtain ⟨hp, -⟩ := h
      subst hp
      simp [scanImportsAux, hf]

theorem scanImports_eq_found (fq : FQName) (asts : List DefinedIndex)
    (t : HType) (n : FQName) (h : importMatches asts fq = [(t, n)]) :
    scanImports asts fq = .found t n := by
  unfold scanImports
  induction asts with
  | nil => simp [importMatches] at h
  | cons a tl ih =>
    cases hf : findDefinedType a fq with
    | none =>
      simp only [importMatches, List.filterMap_cons, hf] at h
      simpa [scanImportsAux, hf] using ih h
    | some p =>
      simp only [importMatches, List.filterMap_cons, hf, List.cons.injEq] at h
      obtain ⟨hp, htl⟩ := h
      subst hp
      simpa [scanImportsAux, hf] using scanImportsAux_of_noMatch fq _ tl htl

theorem scanImports_eq_ambiguous (fq : FQName) (asts : List DefinedIndex)
    (t1 t2 : HType) (n1 n2 : FQName) (rest : List (HType × FQName))
    (h : importMatches asts fq = (t1, n1) :: (t2, n2) :: rest) :
    scanImports asts fq = .ambiguous n1 n2 := by
  unfold scanImports
  induction asts with
  | nil => simp [importMatches] at h
  | cons a tl ih =>
    cases hf : findDefinedType a fq with
    | none =>
      simp only [importMatches, List.filterMap_cons, hf] at h
      simpa [scanImportsAux, hf] using ih h
    | some p =>
      simp only [importMatches, List.filterMap_cons, hf, List.cons.injEq] at h
      obtain ⟨hp, htl⟩ := h
      subst hp
      simpa [scanImportsAux, hf] using
        scanImportsAux_ambiguous_of_match fq tl t1 t2 n1 n2 rest htl

/-! ## Lemmas about the scope walk -/

theorem scopeWalk_eq_innermost_first (fq : FQName) (path : List ScopeTable) :
    scopeWalk path fq =
      ((path.reverse).filterMap (fun s => scopeLookupType s fq)).head? := by
  induction path with
  | nil => rfl
  | cons s rest ih =>
    simp only [List.reverse_cons, List.filterMap_append]
    cases hfm : (rest.reverse).filterMap (fun s => scopeLookupType s fq) with
    | nil =>
      have hr : scopeWalk rest fq = none := by rw [ih, hfm]; rfl
      cases hs : scopeLookupType s fq <;>
        simp [scopeWalk, hr, hs, List.filterMap_cons]
    | cons a l =>
      have hr : scopeWalk rest fq = some a := by rw [ih, hfm]; rfl
      simp [scopeWalk, hr]

/-! ## Lemmas about the containing-interface search -/

theorem findContainingInterface_isInterface (asts : List DefinedIndex)
    (ifc : FQName) (i : HType)
    (h : findContainingInterface asts ifc = some i) : i.isInterface = true := by
  induction asts with
  | nil => simp [findContainingInterface] at h
  | cons a tl ih =>
    simp only [findContainingInterface] at h
    cases hf : findDefinedType a ifc with
    | none => rw [hf] at h; exact ih h
    | some p =>
      obtain ⟨pt, pn⟩ := p
      rw [hf] at h
      simp only at h
      by_cases hi : pt.isInterface
      · rw [if_pos hi] at h
        cases ht : findContainingInterface tl ifc with
        | none => rw [ht] at h; cases h; exact hi
        | some t' => rw [ht] at h; cases h; exact ih ht
      · rw [if_neg hi] at h; exact ih h

/-! ## Lemmas about the defined-types index -/

theorem mem_insertIndex (ix : List (FQName × NamedTypeM)) (k : FQName)
    (v : NamedTypeM) (p : FQName × NamedTypeM) :
    p ∈ insertIndex ix k v ↔ p = (k, v) ∨ (p ∈ ix ∧ p.1 ≠ k) := by
  simp [insertIndex, List.mem_filter, bne_iff_ne, and_comm]

theorem lookupIndex_insert_self (ix : List (FQName × NamedTypeM)) (k : FQName)
    (v : NamedTypeM) : lookupIndex (insertIndex ix k v) k = some v := by
  simp [lookupIndex, insertIndex, List.find?_cons]

theorem find?_filter_ne (ix : List (FQName × NamedTypeM)) (k k' : FQName)
    (h : k' ≠ k) :
    (ix.filter (fun p => p.1 != k)).find? (fun p => p.1 == k') =
      ix.find? (fun p => p.1 == k') := by
  induction ix with
  | nil => rfl
  | cons a tl ih =>
    by_cases ha : a.1 = k
    · have h1 : (a.1 != k) = false := by simp [ha]
      have h2 : (a.1 == k') = false := by
        rw [beq_eq_false_iff_ne, ha]
        exact Ne.symm h
      simp [List.filter_cons, h1, List.find?_cons, h2, ih]
    · have h1 : (a.1 != k) = true := by simp [ha]
      by_cases hk : (a.1 == k') = true
      · simp [List.filter_cons, h1, List.find?_cons, hk]
      · have h2 : (a.1 == k') = false := by simpa using hk
        simp [List.filter_cons, h1, List.find?_cons, h2, ih]

theorem lookupIndex_insert_of_ne (ix : List (FQName × NamedTypeM))
    (k k' : FQName) (v : NamedTypeM) (h : k' ≠ k) :
    lookupIndex (insertIndex ix k v) k' = lookupIndex ix k' := by
  have h2 : (k == k') = false := by
    rw [beq_eq_false_iff_ne]
    exact Ne.symm h
  simp [lookupIndex, insertIndex, List.find?_cons, h2, find?_filter_ne ix k k' h]

/-! ## The index invariant -/

theorem indexInv_init (pkg : List String) (ver : String) :
    IndexInv pkg ver (initParseState pkg ver) := by
  simp [IndexInv, initParseState]

theorem addScoped_spec (pkg : List String) (ver : String) (st : ParseState)
    (nm : String) (st' : ParseState) (hInv : IndexInv pkg ver st)
    (heq : addScopedTypeInternal st nm = some st') :
    ∃ t : NamedTypeM,
      t.localName = nm ∧
      t.fullName =
        ⟨pkg, ver, (st.scopePath.drop 1).map Frame.localName ++ [nm]⟩ ∧
      st'.index = insertIndex st.index t.fullName t ∧
      st'.added = st.added ++ [t] ∧
      IndexInv pkg ver st' := by
  obtain ⟨hpkg, hver, hix, hadd⟩ := hInv
  unfold addScopedTypeInternal at heq
  cases hL : st.scopePath.getLast? with
  | none => rw [hL] at heq; simp at heq
  | some f =>
    rw [hL] at heq
    simp only at heq
    by_cases hdup : (f.table.find? (fun p => p.1 == nm)).isSome
    · rw [if_pos hdup] at heq; simp at heq
    · rw [if_neg hdup] at heq
      simp only [Option.some.injEq] at heq
      subst heq
      refine ⟨⟨nm, ⟨st.pkg, st.ver, (st.scopePath.drop 1).map Frame.localName ++ [nm]⟩⟩,
        rfl, by rw [hpkg, hver], rfl, rfl, hpkg, hver, ?_, ?_⟩
      · intro p hp
        dsimp only at hp ⊢
        rw [mem_insertIndex] at hp
        rcases hp with hp | ⟨hp, hne⟩
        · subst hp
          exact ⟨rfl, by simp⟩
        · obtain ⟨h1, h2⟩ := hix p hp
          exact ⟨h1, by simp [h2]⟩
      · intro u hu
        dsimp only at hu ⊢
        simp only [List.mem_append, List.mem_singleton] at hu
        rcases hu with hu | hu
        · obtain ⟨h1, h2, h3, h4⟩ := hadd u hu
          refine ⟨h1, h2, h3, ?_⟩
          by_cases he : u.fullName =
            (⟨st.pkg, st.ver, (st.scopePath.drop 1).map Frame.localName ++ [nm]⟩ : FQName)
          · have hlast : u.localName = nm := by
              rw [he] at h3
              have h3' :
                  ((st.scopePath.drop 1).map Frame.localName ++ [nm]).getLast? =
                    some u.localName := h3
              rw [List.getLast?_concat] at h3'
              exact (Option.some.inj h3').symm
            have hu' : u =
                (⟨nm, ⟨st.pkg, st.ver,
                  (st.scopePath.drop 1).map Frame.localName ++ [nm]⟩⟩ : NamedTypeM) := by
              cases u with
              | mk ul uf =>
                simp only at hlast he
                rw [hlast, he]
            subst hu'
            exact lookupIndex_insert_self _ _ _
          · rw [lookupIndex_insert_of_ne _ _ _ _ he]
            exact h4
        · subst hu
          refine ⟨hpkg, hver, ?_, ?_⟩
          · show ((st.scopePath.drop 1).map Frame.localName ++ [nm]).getLast? = some nm
            exact List.getLast?_concat _
          · exact lookupIndex_insert_self _ _ _

theorem indexInv_applyOp (pkg : List String) (ver : String) (st : ParseState)
    (op : ParseOp) (h : IndexInv pkg ver st) :
    IndexInv pkg ver (applyOp st op) := by
  cases op with
  | add nm =>
    cases ha : addScopedTypeInternal st nm with
    | none => simpa [applyOp, ha] using h
    | some st' =>
      obtain ⟨t, -, -, -, -, hi⟩ := addScoped_spec pkg ver st nm st' h ha
      simpa [applyOp, ha] using hi
  | openScope nm =>
    cases ha : addScopedTypeInternal st nm with
    | none => simpa [applyOp, ha] using h
    | some st' =>
      obtain ⟨t, -, -, -, -, hi⟩ := addScoped_spec pkg ver st nm st' h ha
      obtain ⟨h1, h2, h3, h4⟩ := hi
      have hred : applyOp st (ParseOp.openScope nm) =
          { st' with scopePath := st'.scopePath ++ [⟨nm, []⟩] } := by
        simp [applyOp, ha]
      rw [hred]
      exact ⟨h1, h2, h3, h4⟩
  | close =>
    obtain ⟨h1, h2, h3, h4⟩ := h
    by_cases hl : st.scopePath.length ≤ 1
    · simp only [applyOp, if_pos hl]
      exact ⟨h1, h2, h3, h4⟩
    · have hred : applyOp st ParseOp.close =
          { st with scopePath := st.scopePath.dropLast } := by
        simp [applyOp, hl]
      rw [hred]
      exact ⟨h1, h2, h3, h4⟩

theorem indexInv_runOps (pkg : List String) (ver : String) (st : ParseState)
    (ops : List ParseOp) (h : IndexInv pkg ver st) :
    IndexInv pkg ver (runOps st ops) := by
  induction ops generalizing st with
  | nil => exact h
  | cons op tl ih => exact ih _ (indexInv_applyOp pkg ver st op h)

/-! ## Counting helpers for the emitted statement lists -/

theorem countP_map_zero {α β : Type} (p : β → Bool) (f : α → β) (l : List α)
    (h : ∀ a, p (f a) = false) : (l.map f).countP p = 0 := by
  rw [List.countP_eq_zero]
  intro b hb
  obtain ⟨a, -, rfl⟩ := List.mem_map.mp hb
  simp [h a]

theorem countP_filterMap_ite_zero {α β : Type} (p : β → Bool) (c : α → Bool)
    (f : α → β) (l : List α) (h : ∀ a, p (f a) = false) :
    (l.filterMap (fun a => if c a then some (f a) else none)).countP p = 0 := by
  rw [List.countP_eq_zero]
  intro b hb
  obtain ⟨a, -, hfa⟩ := List.mem_filterMap.mp hb
  by_cases hc : c a
  · rw [if_pos hc] at hfa
    cases hfa
    simp [h a]
  · rw [if_neg hc] at hfa
    cases hfa

/-! ## Claim theorems -/

/-- **C10** — For every valid FQName whose name component is empty (a
package-and-version-only query), `AST::lookupType` returns no type
immediately, with no diagnostic, no recorded name, and no consultation of
the scope path, the imports, or the `MQDescriptor` special case: the
result is the same for every resolving AST. -/
theorem lookupType_empty_name (ast : LookupAST) (fq : FQName)
    (h : fq.names = []) :
    lookupType ast fq =
      { result := none, ambiguousCandidates := [], importedNames := [],
        importedNamesForJava := [] } := by
  simp [lookupType, h]

/-- Witness for `lookupType_empty_name`: the query `p@1.0` (no name) on the
fixture AST with two imports. -/
theorem lookupType_empty_name_witness :
    (⟨["p"], "1.0", []⟩ : FQName).names = [] ∧
    lookupType ambiguousAst ⟨["p"], "1.0", []⟩ =
      { result := none, ambiguousCandidates := [], importedNames := [],
        importedNamesForJava := [] } :=
  ⟨rfl, lookupType_empty_name ambiguousAst ⟨["p"], "1.0", []⟩ rfl⟩

/-- **C9** — For every interface with a one-way method in its chain, the
generated pass-through constructor sets the one-way queue limit to exactly
3000, and the generated `addOnewayTask` returns
`EX_TRANSACTION_FAILED` when the queue push fails and an ok status
otherwise. -/
theorem passthrough_oneway_limit_and_status (iface : InterfaceM)
    (h : iface.hasOnewayMethods = true) :
    (generatePassthroughSource iface).onewayQueueLimit = some 3000 ∧
    ∃ b, (generatePassthroughSource iface).addOnewayTask = some b ∧
      b.run false = StatusM.fromExceptionCode "EX_TRANSACTION_FAILED" ∧
      b.run true = StatusM.ok := by
  constructor
  · simp [generatePassthroughSource, h]
  · refine ⟨⟨StatusM.fromExceptionCode "EX_TRANSACTION_FAILED", StatusM.ok⟩,
      ?_, rfl, rfl⟩
    simp [generatePassthroughSource, h]

/-- Witness for `passthrough_oneway_limit_and_status`: `IFoo` has the
one-way method `notify_`. -/
theorem passthrough_oneway_witness :
    fooIface.hasOnewayMethods = true ∧
    ((generatePassthroughSource fooIface).onewayQueueLimit = some 3000 ∧
     ∃ b, (generatePassthroughSource fooIface).addOnewayTask = some b ∧
       b.run false = StatusM.fromExceptionCode "EX_TRANSACTION_FAILED" ∧
       b.run true = StatusM.ok) :=
  ⟨by decide, passthrough_oneway_limit_and_status fooIface (by decide)⟩

/-- **C3** (counterexample) — The claim's artifact order (interface
header, wire-format helper header, stub header, proxy header, pass-through
header, combined source) is not the source's: with all stages succeeding,
`generateCpp` attempts the stages in the source order, which differs from
the claimed order; and when the stub header fails with `-1` while the
wire-format helper header would fail with `-2`, the source returns `-1`
where the claimed order would return `-2`. -/
theorem generateCpp_order_counterexample :
    (generateCpp genAllOk).2 = codeArtifactOrder ∧
    codeArtifactOrder ≠ specArtifactOrder ∧
    (generateCpp genTwoFailures).1 = -1 ∧
    (runStages genTwoFailures specArtifactOrder).1 = -2 := by decide

/-- **C3** (amended) — `generateCpp` attempts the six artifacts in the
source order (interface header, stub header, wire-format helper header,
proxy header, combined source, pass-through header), stops at the first
stage that fails, and returns the status of that first failed stage (`OK`
when all succeed). -/
theorem generateCpp_stage_order (gen : Stage → Status_t) :
    generateCpp gen = runStages gen codeArtifactOrder ∧
    (generateCpp gen).1 =
      (match firstFailing gen codeArtifactOrder with
       | some s => gen s
       | none => OK) := by
  by_cases h1 : gen .interfaceHeader = OK <;>
    by_cases h2 : gen .stubHeader = OK <;>
      by_cases h3 : gen .hwBinderHeader = OK <;>
        by_cases h4 : gen .proxyHeader = OK <;>
          by_cases h5 : gen .allSource = OK <;>
            by_cases h6 : gen .passthroughHeader = OK <;>
              simp [generateCpp, runStages, codeArtifactOrder, firstFailing,
                List.find?_cons, h1, h2, h3, h4, h5, h6]

/-- **C2** (counterexample) — For `IChild extends IParent`, the generated
stub `onTransact` switch has cases for both serial ids, but its default
case is the unqualified call `onTransact(...)` — the stub's own
`onTransact` — not a delegation to `BnHwParent::onTransact` as the claim
states. -/
theorem stub_default_counterexample :
    (generateStubOnTransact childIface).caseSerialIds = [1, 2] ∧
    (generateStubOnTransact childIface).defaultCallee = "onTransact" ∧
    specDefaultCallee childIface = some "BnHwParent::onTransact" ∧
    some (generateStubOnTransact childIface).defaultCallee ≠
      specDefaultCallee childIface := by decide

/-- **C2** (amended) — The generated stub `onTransact` switch contains one
case per method serial id in the full inherited chain (for a child
interface: the parent chain's cases followed by its own methods'), and the
default case is an unqualified recursive call to the stub's own
`onTransact`, not to the super-interface's stub. -/
theorem stub_onTransact_cases_and_default (iface : InterfaceM) :
    (generateStubOnTransact iface).caseSerialIds =
      iface.allMethodsFromRoot.map (fun p => p.2.serialId) ∧
    (∀ fq sn ms s, iface = .mk fq sn ms (some s) →
      (generateStubOnTransact iface).caseSerialIds =
        (generateStubOnTransact s).caseSerialIds ++
          ms.map (fun m => m.serialId)) ∧
    (generateStubOnTransact iface).defaultCallee = "onTransact" := by
  refine ⟨rfl, ?_, rfl⟩
  rintro fq sn ms s rfl
  simp [generateStubOnTransact, InterfaceM.allMethodsFromRoot,
    InterfaceM.typeChain, InterfaceM.methods, List.flatMap_append,
    List.map_map, Function.comp_def]

/-- Witness for `stub_onTransact_cases_and_default`: the `IChild` switch is
the `IParent` switch's cases followed by `m2`'s serial id. -/
theorem stub_onTransact_cases_witness :
    (generateStubOnTransact childIface).caseSerialIds =
      (generateStubOnTransact parentIface).caseSerialIds ++
        [m2Fixture].map (fun m => m.serialId) :=
  (stub_onTransact_cases_and_default childIface).2.1
    ⟨["p"], "1.0", ["IChild"]⟩ "BnHwChild" [m2Fixture] parentIface rfl

theorem lookupSuccess_result (ast : LookupAST) (t : HType) (n : FQName) :
    (lookupSuccess ast t n).result = some (collapseTypeDefs t) ∧
    (lookupSuccess ast t n).ambiguousCandidates = [] := by
  simp only [lookupSuccess]
  split
  · simp
  · split <;> simp

/-- **C1** — When `AST::lookupType` scans the imported ASTs and a second
match is found, resolution fails (no type is returned) and the ambiguity
diagnostic names each candidate found: the full names of the first two
matches.  With exactly one match across all imports the lookup succeeds
with that match (typedef chains collapsed), with no diagnostic. -/
theorem lookupType_import_ambiguity (ast : LookupAST) (fq : FQName)
    (t1 t2 t : HType) (n1 n2 n : FQName) (rest : List (HType × FQName))
    (hname : fq.names ≠ []) (hscope : scopeResult ast fq = none) :
    (importMatches ast.importedASTs fq = (t1, n1) :: (t2, n2) :: rest →
      (lookupType ast fq).result = none ∧
      (lookupType ast fq).ambiguousCandidates = [n1, n2]) ∧
    (importMatches ast.importedASTs fq = [(t, n)] →
      (lookupType ast fq).result = some (collapseTypeDefs t) ∧
      (lookupType ast fq).ambiguousCandidates = []) := by
  have hlt : lookupType ast fq = lookupTypeViaImports ast fq := by
    simp [lookupType, hname, hscope]
  constructor
  · intro h
    rw [hlt]
    have hs := scanImports_eq_ambiguous fq ast.importedASTs t1 t2 n1 n2 rest h
    simp [lookupTypeViaImports, hs]
  · intro h
    rw [hlt]
    have hs := scanImports_eq_found fq ast.importedASTs t n h
    simp only [lookupTypeViaImports, hs]
    exact lookupSuccess_result ast t n

/-- Witness for `lookupType_import_ambiguity`: `Bar` defined in both
imported packages fails with both full names in the diagnostic; with a
single importing package it resolves. -/
theorem lookupType_import_ambiguity_witness :
    ((lookupType ambiguousAst bareBar).result = none ∧
     (lookupType ambiguousAst bareBar).ambiguousCandidates = [barQ1, barQ2]) ∧
    ((lookupType uniqueAst bareBar).result =
        some (collapseTypeDefs (HType.namedUDT barQ1)) ∧
     (lookupType uniqueAst bareBar).ambiguousCandidates = []) :=
  ⟨(lookupType_import_ambiguity ambiguousAst bareBar (.namedUDT barQ1)
      (.namedUDT barQ2) (.namedUDT barQ1) barQ1 barQ2 barQ1 [] (by decide)
      (by decide)).1 (by decide),
   (lookupType_import_ambiguity uniqueAst bareBar (.namedUDT barQ1)
      (.namedUDT barQ2) (.namedUDT barQ1) barQ1 barQ2 barQ1 [] (by decide)
      (by decide)).2 (by decide)⟩

/-- **C7** — For a bare-identifier query (empty package and version,
non-empty name), `AST::lookupType` walks the scope path from the innermost
scope outward and returns the first scope match with typedef chains
collapsed (recording nothing else); only when no scope matches does it
fall through to the import search.  The walk is exactly the first hit of
the innermost-first scope sequence. -/
theorem lookupType_bare_identifier (ast : LookupAST) (fq : FQName)
    (hp : fq.package = []) (hv : fq.version = "") (hn : fq.names ≠ []) :
    (∀ t, scopeWalk ast.scopePath fq = some t →
      lookupType ast fq =
        { result := some (collapseTypeDefs t), ambiguousCandidates := [],
          importedNames := [], importedNamesForJava := [] }) ∧
    (scopeWalk ast.scopePath fq = none →
      lookupType ast fq = lookupTypeViaImports ast fq) ∧
    scopeWalk ast.scopePath fq =
      ((ast.scopePath.reverse).filterMap
        (fun s => scopeLookupType s fq)).head? := by
  refine ⟨?_, ?_, scopeWalk_eq_innermost_first fq ast.scopePath⟩
  · intro t ht
    simp [lookupType, hn, scopeResult, hp, hv, ht]
  · intro ht
    simp [lookupType, hn, scopeResult, hp, hv, ht]

/-- Witness for `lookupType_bare_identifier`: `Baz` bound in both scopes of
the fixture resolves to the innermost binding. -/
theorem lookupType_bare_identifier_witness :
    lookupType scopedAst bareBaz =
      { result :=
          some (collapseTypeDefs (HType.namedUDT ⟨["p"], "1.0", ["Qux", "Baz"]⟩)),
        ambiguousCandidates := [], importedNames := [],
        importedNamesForJava := [] } :=
  (lookupType_bare_identifier scopedAst bareBaz rfl rfl (by decide)).1
    (HType.namedUDT ⟨["p"], "1.0", ["Qux", "Baz"]⟩) (by decide)

/-- **C6** — For a successful import-based resolution (exactly one match),
after collapsing typedefs: an interface records its own FQName as the
include target; a non-interface whose match's first name component is an
interface in some imported AST records that interface's FQName; a
non-interface with no such containing interface records the containing
package's `types` artifact. -/
theorem lookupType_include_target (ast : LookupAST) (fq : FQName) (t : HType)
    (n : FQName) (hname : fq.names ≠ []) (hscope : scopeResult ast fq = none)
    (hmatch : importMatches ast.importedASTs fq = [(t, n)]) :
    (∀ ifq, collapseTypeDefs t = HType.iface ifq →
      (lookupType ast fq).importedNames = [ifq]) ∧
    ((collapseTypeDefs t).isInterface = false →
      ∀ ifq, findContainingInterface ast.importedASTs (containingIfcQuery n) =
          some (HType.iface ifq) →
        (lookupType ast fq).importedNames = [ifq]) ∧
    ((collapseTypeDefs t).isInterface = false →
      findContainingInterface ast.importedASTs (containingIfcQuery n) = none →
      (lookupType ast fq).importedNames =
        [⟨n.package, n.version, ["types"]⟩]) := by
  have hlt : lookupType ast fq = lookupSuccess ast t n := by
    have hs := scanImports_eq_found fq ast.importedASTs t n hmatch
    simp [lookupType, hname, hscope, lookupTypeViaImports, hs]
  refine ⟨?_, ?_, ?_⟩
  · intro ifq hi
    rw [hlt]
    simp [lookupSuccess, hi, HType.isInterface, HType.fqNameOf]
  · intro h0 ifq hf
    rw [hlt]
    simp [lookupSuccess, h0, hf, HType.fqNameOf]
    simp [HType.isInterface]
  · intro h0 hf
    rw [hlt]
    simp [lookupSuccess, h0, hf]

/-- Witness for `lookupType_include_target`: `Folder`, defined inside
interface `q@1.0::IQ` of the imported package, makes `IQ` the include
target. -/
theorem lookupType_include_target_witness :
    (lookupType nestedAst bareFolder).importedNames = [iqFq] :=
  (lookupType_include_target nestedAst bareFolder (HType.namedUDT folderFq)
      folderFq (by decide) (by decide) (by decide)).2.1 (by decide) iqFq
    (by decide)

/-- **C8** — After any parsing history: every entry of the defined-types
index has the mapped type's full name as its key, with the AST's package
and version; the index maps every inserted (reachable) type's full name
back to that type; and a successful insertion assigns a full name whose
name path is the scope path's local names joined with the type's local
name, and indexes the new type under it. -/
theorem addScopedType_index_invariant (pkg : List String) (ver : String)
    (ops : List ParseOp) :
    (∀ p ∈ (runOps (initParseState pkg ver) ops).index,
      p.1 = p.2.fullName ∧ p.1.package = pkg ∧ p.1.version = ver) ∧
    (∀ t ∈ (runOps (initParseState pkg ver) ops).added,
      lookupIndex (runOps (initParseState pkg ver) ops).index t.fullName =
        some t) ∧
    (∀ nm st',
      addScopedTypeInternal (runOps (initParseState pkg ver) ops) nm =
        some st' →
      ∃ t : NamedTypeM,
        st'.added = (runOps (initParseState pkg ver) ops).added ++ [t] ∧
        t.localName = nm ∧
        t.fullName = ⟨pkg, ver,
          ((runOps (initParseState pkg ver) ops).scopePath.drop 1).map
            Frame.localName ++ [nm]⟩ ∧
        lookupIndex st'.index t.fullName = some t) := by
  obtain ⟨hpkg, hver, hix, hadd⟩ :=
    indexInv_runOps pkg ver _ ops (indexInv_init pkg ver)
  refine ⟨?_, ?_, ?_⟩
  · intro p hp
    obtain ⟨h1, h2⟩ := hix p hp
    obtain ⟨h3, h4, -, -⟩ := hadd p.2 h2
    exact ⟨h1, by rw [h1]; exact h3, by rw [h1]; exact h4⟩
  · intro t ht
    exact (hadd t ht).2.2.2
  · intro nm st' heq
    obtain ⟨t, h1, h2, h3, h4, -⟩ :=
      addScoped_spec pkg ver _ nm st' ⟨hpkg, hver, hix, hadd⟩ heq
    exact ⟨t, h4, h1, h2, by rw [h3]; exact lookupIndex_insert_self _ _ _⟩

/-- Witness for `addScopedType_index_invariant`: after the fixture history,
the entry for the nested type `Baz.Inner` keys the index by its own full
name, under package `p@1.0`. -/
theorem addScopedType_index_invariant_witness :
    innerEntry.1 = innerEntry.2.fullName ∧ innerEntry.1.package = ["p"] ∧
    innerEntry.1.version = "1.0" :=
  (addScopedType_index_invariant ["p"] "1.0" fixtureOps).1 innerEntry
    (by decide)

/-- **C4** — For every (non-reserved) method, the generated proxy body
writes exactly one interface token — the defining super-interface's
descriptor — and the write precedes the marshaling (phase-1 write and
phase-2 fixup) of every argument: the body splits around a unique token
write with no argument marshaling before it. -/
theorem proxy_one_token_before_args (m : MethodM) (superIfc : InterfaceM)
    (h : ¬(m.isHidlReserved = true ∧ m.overridesProxyImpl = true)) :
    ∃ pre post,
      generateProxyMethodSource m superIfc =
        pre ++ ProxyStmt.writeInterfaceToken superIfc.fqName :: post ∧
      pre.countP isTokenWrite = 0 ∧
      post.countP isTokenWrite = 0 ∧
      pre.countP isArgMarshal = 0 := by
  have hb : (m.isHidlReserved && m.overridesProxyImpl) = false := by
    cases hx : m.isHidlReserved <;> cases hy : m.overridesProxyImpl <;>
      simp_all
  refine ⟨(if !m.results.isEmpty && (canElideCallback m).isNone then
        [ProxyStmt.checkCbNonNull] else []) ++
      [ProxyStmt.instrumentationEntry, ProxyStmt.declareLocals],
    m.args.map (fun a => ProxyStmt.writeArg a.name) ++
      (m.args.filterMap fun a =>
        if a.ty.needsResolveReferences then some (ProxyStmt.resolveArg a.name)
        else none) ++
      (if m.args.any (fun a => a.ty.isInterface) then
        [ProxyStmt.startThreadPool] else []) ++
      [ProxyStmt.transact m.serialId m.isOneway] ++
      (if !m.isOneway then
        [ProxyStmt.readStatus] ++
        m.results.map (fun r => ProxyStmt.readResult r.name) ++
        (m.results.filterMap fun r =>
          if r.ty.needsResolveReferences then
            some (ProxyStmt.resolveResult r.name)
          else none) ++
        (if !m.results.isEmpty && (canElideCallback m).isNone then
          [ProxyStmt.invokeCallback (m.results.map (·.name))]
         else [])
       else []) ++
      [ProxyStmt.instrumentationExit] ++
      (match canElideCallback m with
       | some r => [ProxyStmt.returnElided r.name]
       | none => [ProxyStmt.returnVoid]) ++
      [ProxyStmt.errorLabelReturn], ?_, ?_, ?_, ?_⟩
  · simp [generateProxyMethodSource, hb]
  · cases hc : (!m.results.isEmpty && (canElideCallback m).isNone) <;>
      simp [hc, List.countP_append, List.countP_cons, isTokenWrite]
  · cases hone : m.isOneway <;>
      cases helide : canElideCallback m <;>
        cases hth : m.args.any (fun a => a.ty.isInterface) <;>
          cases hc : (!m.results.isEmpty && (canElideCallback m).isNone) <;>
            simp [hone, helide, hth, hc, List.countP_append, List.countP_cons,
              isTokenWrite, countP_map_zero, countP_filterMap_ite_zero]
  · cases hc : (!m.results.isEmpty && (canElideCallback m).isNone) <;>
      simp [hc, List.countP_append, List.countP_cons, isArgMarshal]

/-- Witness for `proxy_one_token_before_args`: the `ping` fixture method in
`IFoo`. -/
theorem proxy_one_token_witness :
    ¬(pingMethod.isHidlReserved = true ∧
        pingMethod.overridesProxyImpl = true) ∧
    ∃ pre post,
      generateProxyMethodSource pingMethod fooIface =
        pre ++ ProxyStmt.writeInterfaceToken fooIface.fqName :: post ∧
      pre.countP isTokenWrite = 0 ∧
      post.countP isTokenWrite = 0 ∧
      pre.countP isArgMarshal = 0 :=
  ⟨by decide, proxy_one_token_before_args pingMethod fooIface (by decide)⟩

/-- **C5** — The generated proxy passes the `ONEWAY` flag to
`remote()->transact` iff the method is one-way (the body's unique transact
carries exactly the method's one-way flag), and for a one-way method the
body reads no reply status and no results: the transact is immediately
followed by the exit instrumentation, `return Return<void>()`, and the
error label. -/
theorem proxy_oneway_transact (m : MethodM) (superIfc : InterfaceM)
    (h : ¬(m.isHidlReserved = true ∧ m.overridesProxyImpl = true)) :
    (ProxyStmt.transact m.serialId m.isOneway ∈
        generateProxyMethodSource m superIfc ∧
     ∀ k b, ProxyStmt.transact k b ∈ generateProxyMethodSource m superIfc →
       k = m.serialId ∧ b = m.isOneway) ∧
    (m.isOneway = true → m.results = [] →
      (generateProxyMethodSource m superIfc).countP isReplyRead = 0 ∧
      ∃ pre, generateProxyMethodSource m superIfc =
        pre ++ [ProxyStmt.transact m.serialId true,
                ProxyStmt.instrumentationExit, ProxyStmt.returnVoid,
                ProxyStmt.errorLabelReturn]) := by
  have hb : (m.isHidlReserved && m.overridesProxyImpl) = false := by
    cases hx : m.isHidlReserved <;> cases hy : m.overridesProxyImpl <;>
      simp_all
  refine ⟨⟨?_, ?_⟩, ?_⟩
  · simp [generateProxyMethodSource, hb]
  · intro k b hkb
    cases hone : m.isOneway <;>
      cases helide : canElideCallback m <;>
        cases hth : m.args.any (fun a => a.ty.isInterface) <;>
          cases hc : (!m.results.isEmpty && (canElideCallback m).isNone) <;>
            simp only [generateProxyMethodSource, hb, hone, helide, hth, hc,
              Bool.false_eq_true, if_false, if_true, Bool.not_false,
              Bool.not_true, List.mem_append, List.mem_cons, List.mem_map,
              List.mem_filterMap, List.mem_singleton,
              List.not_mem_nil, or_false, false_or,
              Option.ite_none_right_eq_some, Option.some.injEq] at hkb <;>
            · rcases hkb with hkb | hkb <;> simp_all
  · intro hone hres
    have helide : canElideCallback m = none := by
      simp [canElideCallback, hres]
    constructor
    · cases hth : m.args.any (fun a => a.ty.isInterface) <;>
        simp [generateProxyMethodSource, hb, hone, hres, helide, hth,
          List.countP_append, List.countP_cons, isReplyRead,
          countP_map_zero, countP_filterMap_ite_zero]
    · refine ⟨[ProxyStmt.instrumentationEntry, ProxyStmt.declareLocals,
        ProxyStmt.writeInterfaceToken superIfc.fqName] ++
        m.args.map (fun a => ProxyStmt.writeArg a.name) ++
        (m.args.filterMap fun a =>
          if a.ty.needsResolveReferences then
            some (ProxyStmt.resolveArg a.name)
          else none) ++
        (if m.args.any (fun a => a.ty.isInterface) then
          [ProxyStmt.startThreadPool] else []), ?_⟩
      simp [generateProxyMethodSource, hb, hone, hres, helide]

/-- Witness for `proxy_oneway_transact`: the one-way `notify_` fixture
method in `IFoo`. -/
theorem proxy_oneway_witness :
    notifyMethod.isOneway = true ∧ notifyMethod.results = [] ∧
    (generateProxyMethodSource notifyMethod fooIface).countP isReplyRead = 0 ∧
    ∃ pre, generateProxyMethodSource notifyMethod fooIface =
      pre ++ [ProxyStmt.transact notifyMethod.serialId true,
              ProxyStmt.instrumentationExit, ProxyStmt.returnVoid,
              ProxyStmt.errorLabelReturn] :=
  ⟨rfl, rfl,
   (proxy_oneway_transact notifyMethod fooIface (by decide)).2 rfl rfl⟩

end Hidl
